import Mathlib

/-!
# Verification of the vip-car-api backend core (src/server.js)

Shallow embedding of the car-wash queue backend: the Client/Wash data
model, service registration (client upsert, duplicate-pending guard,
currency parsing), the queue listing (overdue sweep, status/date filter,
client join, projection, sort), status update, and client search.

Conventions of the embedding:
* the document store is a pair of lists (`Store`); `findOne` is
  `List.find?`, an in-place `save` of a found document updates the first
  matching list entry, a `new ... save()` appends;
* timestamps are milliseconds as `Nat`; `new Date()` at the time of a
  call is an explicit `now` parameter; `crypto.randomUUID()` and the
  store-generated `_id` are explicit fresh-value parameters;
* JavaScript `String.prototype.replace` with a string pattern (replaces
  only the first occurrence) is `jsReplace`; `parseFloat` (restricted to
  the optional sign / digits / dot / digits shapes that arise here, no
  exponents) is `jsParseFloat`, returning `none` for NaN and exact
  rationals otherwise;
* `new RegExp(q, "i")` is modelled by `regexTest`, a case-insensitive
  matcher for patterns made of literal characters and the `.` wildcard
  (the only regex constructs exercised by the claims).
-/

/-! ## Generic list helpers -/

/-- Update the first element satisfying `p` (the document found by
`findOne` and then saved in place); all other elements untouched. -/
def updateFirst (p : α → Bool) (f : α → α) : List α → List α
  | [] => []
  | a :: as => if p a then f a :: as else a :: updateFirst p f as

/-! ## JavaScript string primitives -/

/-- JavaScript `String.prototype.replace` with a string pattern replaces only the
first occurrence of `pat` (scanning left to right); if `pat` does not
occur, the string is unchanged. -/
def jsReplaceAux (pat rep : List Char) : List Char → List Char
  | [] => if pat.isPrefixOf ([] : List Char) then rep else []
  | c :: cs =>
    if pat.isPrefixOf (c :: cs) then rep ++ (c :: cs).drop pat.length
    else c :: jsReplaceAux pat rep cs

def jsReplace (s pat rep : String) : String :=
  String.mk (jsReplaceAux pat.data rep.data s.data)

/-- Numeric value of a list of decimal digit characters. -/
def digitsToNat (l : List Char) : Nat :=
  l.foldl (fun acc c => 10 * acc + (c.toNat - 48)) 0

/-- The decimal literal recognised by `parseFloat`: sign, integer
digits, fraction digits. Kept structured so that parsing is fully
kernel-computable; its numeric value is `JsNum.val`. -/
structure JsNum where
  neg : Bool
  intds : List Char
  fracds : List Char
deriving DecidableEq, Repr

/-- Numeric value denoted by a parsed decimal literal. -/
def JsNum.val (n : JsNum) : Rat :=
  (if n.neg then -1 else 1) *
    ((digitsToNat n.intds : Rat) + (digitsToNat n.fracds : Rat) / (10 : Rat) ^ n.fracds.length)

/-- Model of JavaScript `parseFloat` for the inputs arising here: skip
leading whitespace, optional sign, longest `digits [ "." digits ]`
prefix; `none` models NaN (no digits at all). Exponents do not occur in
this program's inputs and are not modelled. -/
def jsParseFloatLit (s : String) : Option JsNum :=
  let cs := s.data.dropWhile (fun c => c.isWhitespace)
  let neg := cs.head? = some '-'
  let cs2 := if cs.head? = some '-' || cs.head? = some '+' then cs.tail else cs
  let intds := cs2.takeWhile Char.isDigit
  let rest := cs2.dropWhile Char.isDigit
  let fracds := if rest.head? = some '.' then rest.tail.takeWhile Char.isDigit else []
  if intds.isEmpty && fracds.isEmpty then none
  else some ⟨neg, intds, fracds⟩

def jsParseFloat (s : String) : Option Rat :=
  (jsParseFloatLit s).map JsNum.val

/-- JavaScript truthiness for an optional string field: `undefined`,
`null` (both `none`) and the empty string are falsy. -/
def optTruthy : Option String → Bool
  | some s => s ≠ ""
  | none => false

/-- Model of `server.js` line 122: `parseFloat(washPrice ? washPrice.replace("R$", "")
.replace(".", "").replace(",", ".") : "0")`, as a structured literal. -/
def parsePriceLit (washPrice : Option String) : Option JsNum :=
  jsParseFloatLit
    (if optTruthy washPrice then
      jsReplace (jsReplace (jsReplace (washPrice.getD "") "R$" "") "." "") "," "."
    else "0")

/-- The numeric price stored on the created Wash record. -/
def parsePrice (washPrice : Option String) : Option Rat :=
  (parsePriceLit washPrice).map JsNum.val

/-! ## Regular-expression matching (`new RegExp(q, "i")` model)

The search route builds a regular expression directly from the raw query
string with the case-insensitivity flag.  We model the matcher for
patterns made of literal characters and the `.` wildcard only; the
model is faithful to the JavaScript matcher exactly on such patterns,
so every statement proved about other queries carries a
metacharacter-free hypothesis (`plainChar`, which also rules out
quantifiers — including brace quantifiers — classes, groups, anchors,
alternation and escapes). -/

/-- Case-insensitive character comparison (the `i` flag). -/
def ciCharEq (a b : Char) : Bool := a.toLower == b.toLower

/-- One pattern character against one subject character: `.` matches
anything, other characters match case-insensitively. -/
def regexCharMatch (p c : Char) : Bool := p == '.' || ciCharEq p c

/-- Does the pattern match a prefix of the subject? -/
def regexAccepts : List Char → List Char → Bool
  | [], _ => true
  | _ :: _, [] => false
  | p :: ps, c :: cs => regexCharMatch p c && regexAccepts ps cs

/-- Model of `RegExp.test`: does the pattern match starting at some position? -/
def regexTest (pat : List Char) : List Char → Bool
  | [] => regexAccepts pat []
  | c :: cs => regexAccepts pat (c :: cs) || regexTest pat cs

/-- Case-insensitive literal prefix match (no wildcard). -/
def ciMatchFront : List Char → List Char → Bool
  | [], _ => true
  | _ :: _, [] => false
  | p :: ps, c :: cs => ciCharEq p c && ciMatchFront ps cs

/-- Case-insensitive literal substring occurrence. -/
def ciSubstr (q : List Char) : List Char → Bool
  | [] => ciMatchFront q []
  | c :: cs => ciMatchFront q (c :: cs) || ciSubstr q cs

/-- Characters with no special meaning in a regular expression: the
excluded set is the wildcard, the quantifiers (including the brace
quantifier delimiters, written with their \x7b/\x7d codes), the
anchors, grouping, character classes, alternation and the escape
character.  Queries made only of such characters keep `regexTest` (a
literal-plus-wildcard model) faithful to `new RegExp(q, "i")`, since no
quantifier, class, group or anchor can then occur in the pattern. -/
def plainChar (c : Char) : Bool :=
  !(c == '.' || c == '*' || c == '+' || c == '?' || c == '^' || c == '$' ||
    c == '(' || c == ')' || c == '[' || c == ']' || c == '|' || c == '\\' ||
    c == '\x7b' || c == '\x7d')

/-! ## Data model (`server.js` lines 36-59) -/

/-- A document of the `clients` collection. -/
structure Client where
  id : String
  name : String
  phone : String
  plate : String
  carModel : Option String
  createdAt : Nat
deriving DecidableEq, Repr

/-- A document of the `washes` collection; `wid` is the store-internal
`_id`. -/
structure Wash where
  wid : Nat
  clientId : String
  plate : String
  carModel : Option String
  price : Option Rat
  entryTime : Nat
  deliveryTime : Nat
  status : String
  paymentMethod : Option String
  createdAt : Nat
deriving DecidableEq

/-- The document store: both collections, in insertion order. -/
structure Store where
  clients : List Client
  washes : List Wash
deriving DecidableEq

/-- Request body of `POST /services`.  Optional fields model absent or
`null` JSON members as `none`. -/
structure RegisterInput where
  name : String
  phone : String
  plate : String
  carModel : Option String
  washPrice : Option String
  deliveryTime : Nat
  paymentMethod : Option String
deriving DecidableEq

/-- Outcome of `POST /services`: 400, 409, or 201 with the resulting
client and wash. -/
inductive RegisterOutcome where
  | validationError : RegisterOutcome
  | conflictError : RegisterOutcome
  | created : Client → Wash → RegisterOutcome
deriving DecidableEq

/-! ## `POST /services` — registerService (`server.js` lines 69-143) -/

/-- The Wash document built at `server.js` lines 118-130. -/
def mkWash (now freshWid : Nat) (c : Client) (inp : RegisterInput) : Wash :=
  { wid := freshWid
    clientId := c.id
    plate := c.plate
    carModel := c.carModel
    price := parsePrice inp.washPrice
    entryTime := now
    deliveryTime := inp.deliveryTime
    status := "pending"
    paymentMethod := inp.paymentMethod
    createdAt := now }

/-- The client-field overwrite of the upsert's update branch
(`server.js` lines 101-103). -/
def overwriteClient (inp : RegisterInput) (c : Client) : Client :=
  { c with name := inp.name, phone := inp.phone, carModel := inp.carModel }

/-- Route `POST /services`: carModel validation, duplicate-pending guard,
client upsert by plate, wash creation.  `now` is the call time,
`freshId` the `crypto.randomUUID()` value, `freshWid` the store-assigned
`_id` of the new wash. -/
def registerService (now : Nat) (freshId : String) (freshWid : Nat)
    (inp : RegisterInput) (st : Store) : RegisterOutcome × Store :=
  if optTruthy inp.carModel && decide (30 < (inp.carModel.getD "").length) then
    (.validationError, st)
  else if (st.washes.find? fun w => w.plate == inp.plate && w.status == "pending").isSome then
    (.conflictError, st)
  else
    match st.clients.find? fun c => c.plate == inp.plate with
    | some c =>
      let c2 := overwriteClient inp c
      let w := mkWash now freshWid c2 inp
      (.created c2 w,
        { st with
            clients := updateFirst (fun c => c.plate == inp.plate) (overwriteClient inp) st.clients
            washes := st.washes ++ [w] })
    | none =>
      let c2 : Client :=
        { id := freshId, name := inp.name, phone := inp.phone, plate := inp.plate
          carModel := inp.carModel, createdAt := now }
      let w := mkWash now freshWid c2 inp
      (.created c2 w, { st with clients := st.clients ++ [c2], washes := st.washes ++ [w] })

/-! ## `GET /services` — listQueue (`server.js` lines 146-211) -/

/-- The sweep's per-record effect (`Wash.updateMany` at lines 150-156):
a pending wash whose deliveryTime is strictly before `now` becomes
completed; everything else is untouched. -/
def sweepOne (now : Nat) (w : Wash) : Wash :=
  if w.status == "pending" && w.deliveryTime < now then { w with status := "completed" }
  else w

def sweep (now : Nat) (l : List Wash) : List Wash := l.map (sweepOne now)

/-- Status part of the `$match` filter (lines 158-163): the default
excludes cancelled records; a truthy status different from "all"
restricts to exactly that status. -/
def statusPred (sf : Option String) (w : Wash) : Bool :=
  match sf with
  | some s => if s ≠ "" ∧ s ≠ "all" then w.status == s else w.status != "cancelled"
  | none => w.status != "cancelled"

/-- Date part of the `$match` filter (lines 165-176).  `df` carries the
millisecond timestamp of the requested day's local 00:00:00.000 (the
`new Date(date); setHours(0,0,0,0)` computation); the window end is that
plus `23:59:59.999`, both bounds inclusive (`$gte`/`$lte`). -/
def datePred (df : Option Nat) (w : Wash) : Bool :=
  match df with
  | some d => d ≤ w.deliveryTime && w.deliveryTime ≤ d + 86399999
  | none => true

def washPred (sf : Option String) (df : Option Nat) (w : Wash) : Bool :=
  statusPred sf w && datePred df w

/-- One row of the aggregation output after `$project` (lines 189-202). -/
structure QueueItem where
  wid : Nat
  plate : String
  carModel : Option String
  price : Option Rat
  entryTime : Nat
  deliveryTime : Nat
  status : String
  paymentMethod : Option String
  clientName : String
  clientPhone : String
deriving DecidableEq

def mkItem (w : Wash) (c : Client) : QueueItem :=
  { wid := w.wid, plate := w.plate, carModel := w.carModel, price := w.price
    entryTime := w.entryTime, deliveryTime := w.deliveryTime, status := w.status
    paymentMethod := w.paymentMethod, clientName := c.name, clientPhone := c.phone }

/-- The `$lookup` on `clientId = id` followed by `$unwind` (lines 181-188):
each wash is joined with every client whose custom id matches; a wash
with no matching client contributes nothing. -/
def joinItems (clients : List Client) (ws : List Wash) : List QueueItem :=
  ws.flatMap fun w => (clients.filter fun c => c.id == w.clientId).map (mkItem w)

/-- Route `GET /services`: sweep, filter, join, project, sort ascending by
deliveryTime.  Returns the store after the sweep together with the
response rows. -/
def listQueue (now : Nat) (sf : Option String) (df : Option Nat) (st : Store) :
    Store × List QueueItem :=
  let ws := sweep now st.washes
  ({ st with washes := ws },
    List.insertionSort (fun a b : QueueItem => a.deliveryTime ≤ b.deliveryTime)
      (joinItems st.clients (ws.filter (washPred sf df))))

/-! ## `PATCH /services/:id/status` — updateStatus (`server.js` lines 214-225) -/

/-- Model of `findByIdAndUpdate(id, \x7b status \x7d, \x7b new: true \x7d)`: set the
status of the wash with the given `_id` and return the updated document,
or `none` (the `null` JSON body) when no wash has that id; the store is
then unchanged. -/
def updateStatus (id : Nat) (newStatus : String) (st : Store) : Store × Option Wash :=
  match st.washes.find? fun w => w.wid == id with
  | some w =>
    ({ st with
        washes := updateFirst (fun w => w.wid == id) (fun w => { w with status := newStatus }) st.washes },
      some { w with status := newStatus })
  | none => (st, none)

/-! ## `GET /clients/search` (`server.js` lines 254-270) -/

/-- Does a client match the query regex on any of the four fields?  A
document whose `carModel` field is absent cannot match on that field. -/
def clientMatches (q : String) (c : Client) : Bool :=
  regexTest q.data c.name.data || regexTest q.data c.plate.data ||
    regexTest q.data c.phone.data ||
    (match c.carModel with
     | some m => regexTest q.data m.data
     | none => false)

/-- Model of `Client.find(\x7b $or: [...] \x7d).sort(\x7b createdAt: -1 \x7d)`. -/
def searchClients (q : String) (st : Store) : List Client :=
  List.insertionSort (fun a b : Client => b.createdAt ≤ a.createdAt)
    (st.clients.filter (clientMatches q))

/-- Modelled from the spec: "case-insensitive substring match against
name, plate, phone, or carModel (logical OR)" — the literal-substring
reading of the search predicate, for comparison with `clientMatches`. -/
def clientMatchesSpec (q : String) (c : Client) : Bool :=
  ciSubstr q.data c.name.data || ciSubstr q.data c.plate.data ||
    ciSubstr q.data c.phone.data ||
    (match c.carModel with
     | some m => ciSubstr q.data m.data
     | none => false)

/-- Modelled from the spec: search as literal-substring filtering
ordered by creation time, descending. -/
def searchClientsSpec (q : String) (st : Store) : List Client :=
  List.insertionSort (fun a b : Client => b.createdAt ≤ a.createdAt)
    (st.clients.filter (clientMatchesSpec q))

/-! ## Concrete fixtures used by witnesses and counterexamples -/

def clientA : Client :=
  { id := "c1", name := "Ana", phone := "111", plate := "ABC1234",
    carModel := some "Gol", createdAt := 1 }

/-- A cancelled wash referencing `clientA`. -/
def washCancelled : Wash :=
  { wid := 1, clientId := "c1", plate := "ABC1234", carModel := some "Gol",
    price := none, entryTime := 0, deliveryTime := 50, status := "cancelled",
    paymentMethod := none, createdAt := 0 }

/-- A pending wash referencing `clientA`, overdue at time 10. -/
def washPending : Wash :=
  { wid := 2, clientId := "c1", plate := "ABC1234", carModel := some "Gol",
    price := none, entryTime := 0, deliveryTime := 5, status := "pending",
    paymentMethod := none, createdAt := 0 }

/-- A completed wash referencing `clientA`. -/
def washDone : Wash :=
  { wid := 3, clientId := "c1", plate := "ABC1234", carModel := some "Gol",
    price := none, entryTime := 0, deliveryTime := 50, status := "completed",
    paymentMethod := some "pix", createdAt := 0 }

/-- A wash whose clientId matches no client. -/
def washOrphan : Wash :=
  { wid := 4, clientId := "zz", plate := "XYZ0001", carModel := none,
    price := none, entryTime := 0, deliveryTime := 50, status := "completed",
    paymentMethod := none, createdAt := 0 }

/-- A client fixture whose name contains "abc". -/
def clientB : Client :=
  { id := "c9", name := "abc", phone := "333", plate := "QQQ1111",
    carModel := none, createdAt := 3 }

/-- Total order instances for the createdAt-descending sort used by the
client search. -/
instance : IsTotal Client fun a b => b.createdAt ≤ a.createdAt :=
  ⟨fun a b => Nat.le_total b.createdAt a.createdAt⟩

instance : IsTrans Client fun a b => b.createdAt ≤ a.createdAt :=
  ⟨fun _ _ _ hab hbc => Nat.le_trans hbc hab⟩

/-! ## Helper lemmas -/

theorem length_updateFirst (p : α → Bool) (f : α → α) (l : List α) :
    (updateFirst p f l).length = l.length := by
  induction l with
  | nil => rfl
  | cons a as ih =>
    simp only [updateFirst]
    split <;> simp [ih]

theorem updateFirst_get? (p : α → Bool) (f : α → α) (l : List α) (i : Nat) :
    (updateFirst p f l).get? i = l.get? i ∨
      (updateFirst p f l).get? i = (l.get? i).map f := by
  induction l generalizing i with
  | nil => left; rfl
  | cons a as ih =>
    simp only [updateFirst]
    split
    · cases i with
      | zero => right; rfl
      | succ j => left; rfl
    · cases i with
      | zero => left; rfl
      | succ j => simpa using ih j

theorem takeWhile_all_append (p : α → Bool) (l₁ l₂ : List α)
    (h : ∀ c ∈ l₁, p c = true) :
    (l₁ ++ l₂).takeWhile p = l₁ ++ l₂.takeWhile p := by
  induction l₁ with
  | nil => rfl
  | cons a as ih =>
    have ha : p a = true := h a (by simp)
    simp only [List.cons_append, List.takeWhile_cons, ha]
    simp [ih fun c hc => h c (by simp [hc])]

theorem dropWhile_all_append (p : α → Bool) (l₁ l₂ : List α)
    (h : ∀ c ∈ l₁, p c = true) :
    (l₁ ++ l₂).dropWhile p = l₂.dropWhile p := by
  induction l₁ with
  | nil => rfl
  | cons a as ih =>
    have ha : p a = true := h a (by simp)
    simp only [List.cons_append, List.dropWhile_cons, ha]
    simp [ih fun c hc => h c (by simp [hc])]

theorem sweepOne_wid (now : Nat) (w : Wash) : (sweepOne now w).wid = w.wid := by
  unfold sweepOne; split <;> rfl

theorem sweepOne_clientId (now : Nat) (w : Wash) :
    (sweepOne now w).clientId = w.clientId := by
  unfold sweepOne; split <;> rfl

theorem sweepOne_overdue {now : Nat} {w : Wash} (h1 : w.status = "pending")
    (h2 : w.deliveryTime < now) :
    sweepOne now w = { w with status := "completed" } := by
  unfold sweepOne
  rw [if_pos]
  simp [h1, h2]

theorem sweepOne_future {now : Nat} {w : Wash} (h : now ≤ w.deliveryTime) :
    sweepOne now w = w := by
  unfold sweepOne
  rw [if_neg]
  simp [Nat.not_lt.mpr h]

theorem sweepOne_not_pending {now : Nat} {w : Wash} (h : w.status ≠ "pending") :
    sweepOne now w = w := by
  unfold sweepOne
  rw [if_neg]
  simp [h]

/-- Membership in the `GET /services` response: exactly the rows built
from a swept wash that passes the filter, joined with a client whose
custom id equals the wash's `clientId`. -/
theorem mem_listQueue_iff {now : Nat} {sf : Option String} {df : Option Nat}
    {st : Store} {item : QueueItem} :
    item ∈ (listQueue now sf df st).2 ↔
      ∃ w ∈ sweep now st.washes, washPred sf df w = true ∧
        ∃ c ∈ st.clients, c.id = w.clientId ∧ item = mkItem w c := by
  simp only [listQueue, List.mem_insertionSort, joinItems, List.mem_flatMap,
    List.mem_filter, List.mem_map]
  constructor
  · rintro ⟨w, ⟨hw, hpred⟩, c, ⟨hc, hid⟩, rfl⟩
    exact ⟨w, hw, hpred, c, hc, by simpa using hid, rfl⟩
  · rintro ⟨w, hw, hpred, c, hc, hid, rfl⟩
    exact ⟨w, ⟨hw, hpred⟩, c, ⟨hc, by simpa using hid⟩, rfl⟩

theorem listQueue_store (now : Nat) (sf : Option String) (df : Option Nat)
    (st : Store) :
    (listQueue now sf df st).1 = { st with washes := sweep now st.washes } := rfl

/-- On a wildcard-free pattern the regex prefix match is exactly the
case-insensitive literal prefix match. -/
theorem regexAccepts_eq_ciMatchFront {pat : List Char} (h : '.' ∉ pat) :
    ∀ s : List Char, regexAccepts pat s = ciMatchFront pat s := by
  induction pat with
  | nil => intro s; rfl
  | cons p ps ih =>
    intro s
    cases s with
    | nil => rfl
    | cons c cs =>
      have hp : (p == '.') = false := by
        have : p ≠ '.' := fun he => h (he ▸ List.mem_cons_self p ps)
        simpa using this
      simp only [regexAccepts, ciMatchFront, regexCharMatch, hp, Bool.false_or]
      rw [ih fun hm => h (List.mem_cons_of_mem p hm)]

/-- On a wildcard-free pattern `RegExp.test` is exactly case-insensitive
literal substring occurrence. -/
theorem regexTest_eq_ciSubstr {pat : List Char} (h : '.' ∉ pat) :
    ∀ s : List Char, regexTest pat s = ciSubstr pat s := by
  intro s
  induction s with
  | nil => simp [regexTest, ciSubstr, regexAccepts_eq_ciMatchFront h]
  | cons c cs ih => simp [regexTest, ciSubstr, regexAccepts_eq_ciMatchFront h, ih]

/-- On a metacharacter-free query the search predicate coincides with
the spec's literal-substring predicate. -/
theorem clientMatches_eq_spec {q : String} (h : ∀ c ∈ q.data, plainChar c = true)
    (c : Client) : clientMatches q c = clientMatchesSpec q c := by
  have hdot : '.' ∉ q.data := fun hmem => by
    have := h _ hmem
    simp [plainChar] at this
  simp only [clientMatches, clientMatchesSpec, regexTest_eq_ciSubstr hdot]

theorem digitsToNat_foldl (a : Nat) (l : List Char) :
    l.foldl (fun acc c => 10 * acc + (c.toNat - 48)) a =
      a * 10 ^ l.length + digitsToNat l := by
  induction l generalizing a with
  | nil => simp [digitsToNat]
  | cons c cs ih =>
    have hc : digitsToNat (c :: cs) =
        (c.toNat - 48) * 10 ^ cs.length + digitsToNat cs := by
      show List.foldl _ _ (c :: cs) = _
      rw [List.foldl_cons, ih]
      norm_num
    rw [List.foldl_cons, ih, hc, List.length_cons]
    ring

theorem digitsToNat_append (d₁ d₂ : List Char) :
    digitsToNat (d₁ ++ d₂) = digitsToNat d₁ * 10 ^ d₂.length + digitsToNat d₂ := by
  show List.foldl _ _ _ = _
  rw [List.foldl_append]
  exact digitsToNat_foldl _ d₂

theorem digit_ne {c : Char} (h : c.isDigit = true) {a : Char}
    (ha : a.isDigit = false) : c ≠ a := by
  intro he; rw [he, ha] at h; cases h

/-- First-occurrence replacement with a one-character pattern: the part
before the first occurrence is kept, the occurrence is replaced, the
rest is untouched. -/
theorem jsReplaceAux_single (a : Char) (rep : List Char) {l₁ : List Char}
    (l₂ : List Char) (h : ∀ c ∈ l₁, c ≠ a) :
    jsReplaceAux [a] rep (l₁ ++ a :: l₂) = l₁ ++ (rep ++ l₂) := by
  induction l₁ with
  | nil =>
    simp only [List.nil_append, jsReplaceAux]
    rw [if_pos]
    · simp
    · simp [List.isPrefixOf]
  | cons b bs ih =>
    have hb : (a == b) = false := by
      have : b ≠ a := h b (List.mem_cons_self b bs)
      simpa using fun he => this he.symm
    simp only [List.cons_append, jsReplaceAux, List.isPrefixOf, hb, Bool.false_and,
      Bool.false_eq_true, if_false, List.append_eq]
    rw [ih fun c hc => h c (List.mem_cons_of_mem b hc)]

theorem jsReplaceAux_rs (t : List Char) :
    jsReplaceAux ['R', '$'] [] ('R' :: '$' :: t) = t := by
  simp [jsReplaceAux, List.isPrefixOf]

theorem digit_not_ws {c : Char} (h : c.isDigit = true) : c.isWhitespace = false := by
  have h1 : c ≠ ' ' := digit_ne h (by decide)
  have h2 : c ≠ '\t' := digit_ne h (by decide)
  have h3 : c ≠ '\r' := digit_ne h (by decide)
  have h4 : c ≠ '\n' := digit_ne h (by decide)
  unfold Char.isWhitespace
  simp [h1, h2, h3, h4]

theorem takeWhile_all (p : α → Bool) (l : List α) (h : ∀ c ∈ l, p c = true) :
    l.takeWhile p = l := by
  have := takeWhile_all_append p l [] h
  simpa using this

/-- Lemma: `parseFloat` on a leading space followed by digits, a dot and more
digits recognises exactly those digit groups. -/
theorem jsParseFloatLit_digits (d f : List Char) (hd : d ≠ [])
    (hdd : ∀ c ∈ d, c.isDigit = true) (hff : ∀ c ∈ f, c.isDigit = true) :
    jsParseFloatLit (String.mk (' ' :: (d ++ '.' :: f))) = some ⟨false, d, f⟩ := by
  obtain ⟨c, d', rfl⟩ : ∃ c d', d = c :: d' := by
    cases d with
    | nil => exact absurd rfl hd
    | cons c d' => exact ⟨c, d', rfl⟩
  have hc : c.isDigit = true := hdd c (List.mem_cons_self c d')
  have hdig' : ∀ x ∈ d', x.isDigit = true := fun x hx => hdd x (List.mem_cons_of_mem c hx)
  have hdotd : ('.' : Char).isDigit = false := by decide
  have hcs : List.dropWhile (fun x => x.isWhitespace) (' ' :: c :: (d' ++ '.' :: f)) =
      c :: (d' ++ '.' :: f) := by
    rw [List.dropWhile_cons, List.dropWhile_cons]
    simp [digit_not_ws hc]
  have hne1 : c ≠ '-' := digit_ne hc (by decide)
  have hne2 : c ≠ '+' := digit_ne hc (by decide)
  have htake : List.takeWhile Char.isDigit (c :: (d' ++ '.' :: f)) = c :: d' := by
    rw [List.takeWhile_cons, takeWhile_all_append Char.isDigit d' ('.' :: f) hdig']
    simp [hc, List.takeWhile_cons, hdotd]
  have hdrop2 : List.dropWhile Char.isDigit (c :: (d' ++ '.' :: f)) = '.' :: f := by
    rw [List.dropWhile_cons, dropWhile_all_append Char.isDigit d' ('.' :: f) hdig']
    simp [hc, List.dropWhile_cons, hdotd]
  have htakef : List.takeWhile Char.isDigit f = f := takeWhile_all Char.isDigit f hff
  have hmk : (String.mk (' ' :: (c :: d' ++ '.' :: f))).data =
      ' ' :: c :: (d' ++ '.' :: f) := by simp
  unfold jsParseFloatLit
  rw [hmk, hcs]
  simp only [List.head?_cons, Option.some.injEq, htake, hdrop2, htakef]
  simp [hne1, hne2, List.isEmpty_cons]
  refine ⟨fun hfalse => absurd (hc.symm.trans hfalse) (by decide), htake, ?_⟩
  rw [hdrop2]
  simp [htakef]

/-- The full price-parsing pipeline on an amount written with the `R$`
prefix and one thousands group: the first `.` and the `,` are replaced,
and the two digit groups merge into the integer part. -/
theorem parsePriceLit_thousands (d₁ d₂ f : List Char) (h1 : d₁ ≠ [])
    (hd₁ : ∀ c ∈ d₁, c.isDigit = true) (hd₂ : ∀ c ∈ d₂, c.isDigit = true)
    (hf : ∀ c ∈ f, c.isDigit = true) :
    parsePriceLit (some (String.mk
      ('R' :: '$' :: ' ' :: (d₁ ++ '.' :: (d₂ ++ ',' :: f))))) =
      some ⟨false, d₁ ++ d₂, f⟩ := by
  have hdotd : ('.' : Char).isDigit = false := by decide
  have hcommad : (',' : Char).isDigit = false := by decide
  have htruthy : optTruthy (some (String.mk
      ('R' :: '$' :: ' ' :: (d₁ ++ '.' :: (d₂ ++ ',' :: f))))) = true := by
    simp [optTruthy, String.ext_iff]
  have e1 : jsReplace (String.mk ('R' :: '$' :: ' ' :: (d₁ ++ '.' :: (d₂ ++ ',' :: f))))
      "R$" "" = String.mk (' ' :: (d₁ ++ '.' :: (d₂ ++ ',' :: f))) := by
    unfold jsReplace
    rw [show ("R$" : String).data = ['R', '$'] from rfl,
      show ("" : String).data = [] from rfl]
    rw [show (String.mk ('R' :: '$' :: ' ' :: (d₁ ++ '.' :: (d₂ ++ ',' :: f)))).data =
      'R' :: '$' :: (' ' :: (d₁ ++ '.' :: (d₂ ++ ',' :: f))) from rfl]
    rw [jsReplaceAux_rs]
  have hno_dot : ∀ c ∈ ' ' :: d₁, c ≠ '.' := by
    intro c hcm
    rcases List.mem_cons.mp hcm with rfl | hcm
    · decide
    · exact digit_ne (hd₁ c hcm) hdotd
  have e2 : jsReplace (String.mk (' ' :: (d₁ ++ '.' :: (d₂ ++ ',' :: f)))) "." "" =
      String.mk (' ' :: (d₁ ++ (d₂ ++ ',' :: f))) := by
    unfold jsReplace
    rw [show ("." : String).data = ['.'] from rfl, show ("" : String).data = [] from rfl]
    rw [show (String.mk (' ' :: (d₁ ++ '.' :: (d₂ ++ ',' :: f)))).data =
      (' ' :: d₁) ++ '.' :: (d₂ ++ ',' :: f) from by simp]
    rw [jsReplaceAux_single '.' [] (d₂ ++ ',' :: f) hno_dot]
    simp
  have hno_comma : ∀ c ∈ (' ' :: d₁) ++ d₂, c ≠ ',' := by
    intro c hcm
    rcases List.mem_append.mp hcm with hcm | hcm
    · rcases List.mem_cons.mp hcm with rfl | hcm
      · decide
      · exact digit_ne (hd₁ c hcm) hcommad
    · exact digit_ne (hd₂ c hcm) hcommad
  have e3 : jsReplace (String.mk (' ' :: (d₁ ++ (d₂ ++ ',' :: f)))) "," "." =
      String.mk (' ' :: ((d₁ ++ d₂) ++ '.' :: f)) := by
    unfold jsReplace
    rw [show ("," : String).data = [','] from rfl, show ("." : String).data = ['.'] from rfl]
    rw [show (String.mk (' ' :: (d₁ ++ (d₂ ++ ',' :: f)))).data =
      ((' ' :: d₁) ++ d₂) ++ ',' :: f from by simp]
    rw [jsReplaceAux_single ',' ['.'] f hno_comma]
    simp
  unfold parsePriceLit
  rw [if_pos htruthy, show (some (String.mk
      ('R' :: '$' :: ' ' :: (d₁ ++ '.' :: (d₂ ++ ',' :: f))))).getD "" =
    String.mk ('R' :: '$' :: ' ' :: (d₁ ++ '.' :: (d₂ ++ ',' :: f))) from rfl]
  rw [e1, e2, e3]
  exact jsParseFloatLit_digits (d₁ ++ d₂) f
    (fun h => h1 (List.append_eq_nil.mp h).1)
    (fun c hc => (List.mem_append.mp hc).elim (hd₁ c) (hd₂ c))
    hf


/-! ## Claims -/

/-- C1, counterexample: with `status=all` the code keeps the default
filter `status ≠ cancelled` (the `if (status && status !== "all")` at
line 161 only replaces it when the status is NOT "all"), so a cancelled
wash with a matching client is not returned even though the claim says
`all` imposes no status restriction. -/
theorem c1_status_all_counterexample :
    (listQueue 10 (some "all") none
        { clients := [clientA], washes := [washCancelled] }).2 = [] ∧
    washCancelled ∈ ({ clients := [clientA], washes := [washCancelled] } : Store).washes ∧
    washCancelled.status = "cancelled" ∧
    clientA ∈ ({ clients := [clientA], washes := [washCancelled] } : Store).clients ∧
    clientA.id = washCancelled.clientId := by
  refine ⟨by decide, by decide, rfl, by decide, rfl⟩

/-- C1 (amended): with `statusFilter = "all"`, listQueue behaves exactly
like the default (no statusFilter) call: no restriction to one specific
status, but records with status = cancelled remain excluded. -/
theorem c1_status_all_amended (now : Nat) (df : Option Nat) (st : Store) :
    listQueue now (some "all") df st = listQueue now none df st ∧
    ∀ item ∈ (listQueue now (some "all") df st).2, item.status ≠ "cancelled" := by
  have hpred : ∀ w, statusPred (some "all") w = statusPred none w := by
    intro w
    simp only [statusPred]
    rw [if_neg fun h => h.2 rfl]
  constructor
  · have hfilt : (sweep now st.washes).filter (washPred (some "all") df) =
        (sweep now st.washes).filter (washPred none df) :=
      List.filter_congr fun w _ => by simp [washPred, hpred w]
    have h2 : (listQueue now (some "all") df st).2 = (listQueue now none df st).2 := by
      show List.insertionSort (fun a b : QueueItem => a.deliveryTime ≤ b.deliveryTime)
          (joinItems st.clients (List.filter (washPred (some "all") df) (sweep now st.washes))) =
        List.insertionSort (fun a b : QueueItem => a.deliveryTime ≤ b.deliveryTime)
          (joinItems st.clients (List.filter (washPred none df) (sweep now st.washes)))
      rw [hfilt]
    exact Prod.ext rfl h2
  · intro item hitem
    obtain ⟨w, _, hpw, c, _, _, rfl⟩ := mem_listQueue_iff.mp hitem
    have hs : statusPred (some "all") w = true := by
      have h := hpw
      simp only [washPred, Bool.and_eq_true] at h
      exact h.1
    rw [hpred w] at hs
    have hbne : (w.status != "cancelled") = true := hs
    simpa [mkItem] using hbne

/-- C1 amended, witness at a concrete store: the "all" call equals the
default call, and a completed item it returns is not cancelled. -/
theorem c1_status_all_amended_witness :
    (listQueue 10 (some "all") none { clients := [clientA], washes := [washDone] } =
      listQueue 10 none none { clients := [clientA], washes := [washDone] }) ∧
    (mkItem washDone clientA).status ≠ "cancelled" :=
  ⟨(c1_status_all_amended 10 none { clients := [clientA], washes := [washDone] }).1,
   (c1_status_all_amended 10 none { clients := [clientA], washes := [washDone] }).2
     (mkItem washDone clientA) (by decide)⟩

/-- C2, counterexample: `String.prototype.replace` with a string pattern
replaces only the FIRST occurrence, so "R$ 1.234.567,89" becomes
" 1234.567.89" after the replace chain and `parseFloat` stops at the
second dot: the stored price is 1234.567, not the claimed 1234567.89. -/
theorem c2_currency_parsing_counterexample :
    parsePrice (some "R$ 1.234.567,89") = some ((1234567 : Rat) / 1000) ∧
    ((1234567 : Rat) / 1000) ≠ (123456789 : Rat) / 100 := by
  constructor
  · show (parsePriceLit (some "R$ 1.234.567,89")).map JsNum.val = _
    rw [show parsePriceLit (some "R$ 1.234.567,89") =
      some ⟨false, ['1', '2', '3', '4'], ['5', '6', '7']⟩ from by decide]
    have e1 : digitsToNat ['1', '2', '3', '4'] = 1234 := by decide
    have e2 : digitsToNat ['5', '6', '7'] = 567 := by decide
    simp [JsNum.val, e1, e2]
    norm_num
  · norm_num

/-- C2 (amended): registerService parses priceText as a localized
currency string with an optional "R$" prefix, "," as decimal separator
and "." as thousands separator, but only the FIRST "." is removed, so
only amounts with at most one thousands group parse to the intended
value; absent or empty priceText parses to 0, "50,00" to 50, and
"R$ 1.234,56" to 1234.56 (an instance of the general statement). -/
theorem c2_currency_parsing_amended :
    (∀ d₁ d₂ f : List Char, d₁ ≠ [] →
      (∀ c ∈ d₁, c.isDigit = true) → (∀ c ∈ d₂, c.isDigit = true) →
      (∀ c ∈ f, c.isDigit = true) →
      parsePrice (some (String.mk
        ('R' :: '$' :: ' ' :: (d₁ ++ '.' :: (d₂ ++ ',' :: f))))) =
        some (((digitsToNat d₁ * 10 ^ d₂.length + digitsToNat d₂ : Nat) : Rat) +
          (digitsToNat f : Rat) / 10 ^ f.length)) ∧
    parsePrice none = some 0 ∧
    parsePrice (some "") = some 0 ∧
    parsePrice (some "50,00") = some 50 := by
  refine ⟨?_, ?_, ?_, ?_⟩
  · intro d₁ d₂ f h1 hd₁ hd₂ hf
    show (parsePriceLit _).map JsNum.val = _
    rw [parsePriceLit_thousands d₁ d₂ f h1 hd₁ hd₂ hf]
    simp [JsNum.val, digitsToNat_append]
  · show (parsePriceLit none).map JsNum.val = _
    rw [show parsePriceLit none = some ⟨false, ['0'], []⟩ from by decide]
    simp [JsNum.val, show digitsToNat ['0'] = 0 from by decide,
      show digitsToNat [] = 0 from rfl]
  · show (parsePriceLit (some "")).map JsNum.val = _
    rw [show parsePriceLit (some "") = some ⟨false, ['0'], []⟩ from by decide]
    simp [JsNum.val, show digitsToNat ['0'] = 0 from by decide,
      show digitsToNat [] = 0 from rfl]
  · show (parsePriceLit (some "50,00")).map JsNum.val = _
    rw [show parsePriceLit (some "50,00") = some ⟨false, ['5', '0'], ['0', '0']⟩ from by decide]
    have e1 : digitsToNat ['5', '0'] = 50 := by decide
    have e2 : digitsToNat ['0', '0'] = 0 := by decide
    simp [JsNum.val, e1, e2]

/-- C2 amended, witness: the general statement instantiated at
"R$ 1.234,56" (digit groups 1, 234 and cents 56). -/
theorem c2_currency_parsing_amended_witness :
    parsePrice (some (String.mk
      ('R' :: '$' :: ' ' :: (['1'] ++ '.' :: (['2', '3', '4'] ++ ',' :: ['5', '6']))))) =
      some (((digitsToNat ['1'] * 10 ^ (['2', '3', '4'] : List Char).length +
        digitsToNat ['2', '3', '4'] : Nat) : Rat) +
        (digitsToNat ['5', '6'] : Rat) / 10 ^ (['5', '6'] : List Char).length) :=
  c2_currency_parsing_amended.1 ['1'] ['2', '3', '4'] ['5', '6']
    (by decide) (by decide) (by decide) (by decide)

/-- C3: if the plate already has a pending wash (and the request passes
the carModel validation that runs first), registerService returns the
409 conflict and leaves the store exactly as it was: no Client and no
Wash is created or modified. -/
theorem c3_duplicate_pending (now : Nat) (freshId : String) (freshWid : Nat)
    (inp : RegisterInput) (st : Store)
    (hval : (optTruthy inp.carModel && decide (30 < (inp.carModel.getD "").length)) = false)
    (hpend : ∃ w ∈ st.washes, w.plate = inp.plate ∧ w.status = "pending") :
    registerService now freshId freshWid inp st = (.conflictError, st) := by
  have hfind : (st.washes.find? fun w =>
      w.plate == inp.plate && w.status == "pending").isSome = true := by
    rw [List.find?_isSome]
    obtain ⟨w, hw, hp, hs⟩ := hpend
    exact ⟨w, hw, by simp [hp, hs]⟩
  unfold registerService
  rw [if_neg (by simp [hval]), if_pos hfind]

/-- C3 witness: a second registration for plate "ABC1234" while
`washPending` is in the queue conflicts and writes nothing. -/
theorem c3_duplicate_pending_witness :
    registerService 10 "u2" 7
      { name := "Bob", phone := "222", plate := "ABC1234", carModel := some "Uno",
        washPrice := some "50,00", deliveryTime := 100, paymentMethod := some "pix" }
      { clients := [clientA], washes := [washPending] } =
      (.conflictError, { clients := [clientA], washes := [washPending] }) :=
  c3_duplicate_pending 10 "u2" 7 _ _ (by decide) ⟨washPending, by decide, rfl, rfl⟩

/-- C4: when a Client with the request's plate already exists (and the
request passes validation and the duplicate-pending guard), the upsert
keeps the client list the same length (no second Client) and every
entry is either untouched or overwritten only in name/phone/carModel;
in particular every entry keeps its id and its plate. -/
theorem c4_upsert_existing (now : Nat) (freshId : String) (freshWid : Nat)
    (inp : RegisterInput) (st : Store) (c : Client)
    (hval : (optTruthy inp.carModel && decide (30 < (inp.carModel.getD "").length)) = false)
    (hnop : ∀ w ∈ st.washes, ¬(w.plate = inp.plate ∧ w.status = "pending"))
    (hfound : (st.clients.find? fun c => c.plate == inp.plate) = some c) :
    (registerService now freshId freshWid inp st).2.clients.length = st.clients.length ∧
    ∀ i : Nat,
      ((registerService now freshId freshWid inp st).2.clients.get? i).map Client.id =
        (st.clients.get? i).map Client.id ∧
      ((registerService now freshId freshWid inp st).2.clients.get? i).map Client.plate =
        (st.clients.get? i).map Client.plate ∧
      ((registerService now freshId freshWid inp st).2.clients.get? i = st.clients.get? i ∨
        (registerService now freshId freshWid inp st).2.clients.get? i =
          (st.clients.get? i).map (overwriteClient inp)) := by
  have hfindw : (st.washes.find? fun w => w.plate == inp.plate && w.status == "pending") =
      none := by
    rw [List.find?_eq_none]
    intro w hw
    simp only [Bool.and_eq_true, beq_iff_eq, not_and]
    intro hp hs
    exact absurd ⟨hp, hs⟩ (hnop w hw)
  have hreg : (registerService now freshId freshWid inp st).2 =
      { st with
          clients := updateFirst (fun c => c.plate == inp.plate) (overwriteClient inp) st.clients
          washes := st.washes ++ [mkWash now freshWid (overwriteClient inp c) inp] } := by
    unfold registerService
    rw [if_neg (by simp [hval]), hfindw]
    simp [hfound]
  rw [hreg]
  refine ⟨length_updateFirst _ _ _, fun i => ?_⟩
  rcases updateFirst_get? (fun c => c.plate == inp.plate) (overwriteClient inp) st.clients i
    with h | h
  · rw [h]
    exact ⟨rfl, rfl, Or.inl rfl⟩
  · rw [h]
    refine ⟨?_, ?_, Or.inr rfl⟩
    · cases st.clients.get? i <;> rfl
    · cases st.clients.get? i <;> rfl

/-- C4 witness: re-registering plate "ABC1234" with new contact data
keeps exactly one client, whose id is unchanged. -/
theorem c4_upsert_existing_witness :
    (registerService 10 "u2" 7
      { name := "Bob", phone := "222", plate := "ABC1234", carModel := some "Uno",
        washPrice := none, deliveryTime := 100, paymentMethod := none }
      { clients := [clientA], washes := [] }).2.clients.length =
      ({ clients := [clientA], washes := [] } : Store).clients.length ∧
    ((registerService 10 "u2" 7
      { name := "Bob", phone := "222", plate := "ABC1234", carModel := some "Uno",
        washPrice := none, deliveryTime := 100, paymentMethod := none }
      { clients := [clientA], washes := [] }).2.clients.get? 0).map Client.id =
      (({ clients := [clientA], washes := [] } : Store).clients.get? 0).map Client.id :=
  ⟨(c4_upsert_existing 10 "u2" 7 _ _ clientA (by decide) (by decide) (by decide)).1,
   ((c4_upsert_existing 10 "u2" 7 _ _ clientA (by decide) (by decide) (by decide)).2 0).1⟩

/-- C5: every listQueue call first sweeps the queue: an overdue pending
wash reappears in the stored collection as completed, a wash whose
deliveryTime is at or after the current time is untouched, and (when
store ids are unique) the swept record is absent from a subsequent
query filtered to status=pending. -/
theorem c5_sweep (now now2 : Nat) (sf : Option String) (df df2 : Option Nat)
    (st : Store) (w : Wash)
    (hw : w ∈ st.washes) (hp : w.status = "pending") (hov : w.deliveryTime < now)
    (huniq : ∀ w2 ∈ st.washes, w2.wid = w.wid → w2 = w) :
    ({ w with status := "completed" } ∈ (listQueue now sf df st).1.washes) ∧
    (∀ w2 ∈ st.washes, now ≤ w2.deliveryTime → w2 ∈ (listQueue now sf df st).1.washes) ∧
    (∀ item ∈ (listQueue now2 (some "pending") df2 (listQueue now sf df st).1).2,
      item.wid ≠ w.wid) := by
  have hwashes : (listQueue now sf df st).1.washes = sweep now st.washes := rfl
  refine ⟨?_, ?_, ?_⟩
  · rw [hwashes]
    exact List.mem_map.mpr ⟨w, hw, (sweepOne_overdue hp hov).symm ▸ rfl⟩
  · intro w2 h2 hfut
    rw [hwashes]
    exact List.mem_map.mpr ⟨w2, h2, sweepOne_future hfut⟩
  · intro item hitem heq
    obtain ⟨w1, hw1, hpred1, c1, _, _, rfl⟩ := mem_listQueue_iff.mp hitem
    obtain ⟨w'', hw'', rfl⟩ := List.mem_map.mp hw1
    rw [hwashes] at hw''
    obtain ⟨w₀, hw₀, rfl⟩ := List.mem_map.mp hw''
    have hmkwid : (mkItem (sweepOne now2 (sweepOne now w₀)) c1).wid = w₀.wid := by
      rw [show (mkItem (sweepOne now2 (sweepOne now w₀)) c1).wid =
        (sweepOne now2 (sweepOne now w₀)).wid from rfl, sweepOne_wid, sweepOne_wid]
    have hw₀w : w₀ = w := huniq w₀ hw₀ (by rw [← hmkwid, heq])
    subst hw₀w
    have hsw : sweepOne now w₀ = { w₀ with status := "completed" } := sweepOne_overdue hp hov
    have hsw2 : sweepOne now2 (sweepOne now w₀) = { w₀ with status := "completed" } := by
      rw [hsw]
      exact sweepOne_not_pending (by simp)
    have hstat : statusPred (some "pending") (sweepOne now2 (sweepOne now w₀)) = true :=
      (Bool.and_eq_true _ _ ▸ hpred1 : _ ∧ _).1
    rw [hsw2] at hstat
    simp only [statusPred] at hstat
    rw [if_pos (by exact ⟨by decide, by decide⟩)] at hstat
    simp at hstat

/-- C5 witness: at time 10 the overdue `washPending` (deliveryTime 5)
is stored as completed by the sweep. -/
theorem c5_sweep_witness :
    { washPending with status := "completed" } ∈
      (listQueue 10 none none { clients := [clientA], washes := [washPending] }).1.washes :=
  (c5_sweep 10 10 none none none { clients := [clientA], washes := [washPending] }
    washPending (by decide) rfl (by decide) (by decide)).1

/-- C6: with a date filter, every returned row's deliveryTime lies in
the inclusive window from the day's local 00:00:00.000 (`d`) to
23:59:59.999 (`d + 86399999`); consequently no wash outside the window
is returned. -/
theorem c6_date_filter (now : Nat) (sf : Option String) (d : Nat) (st : Store)
    (item : QueueItem) (h : item ∈ (listQueue now sf (some d) st).2) :
    d ≤ item.deliveryTime ∧ item.deliveryTime ≤ d + 86399999 := by
  obtain ⟨w, _, hpred, c, _, _, rfl⟩ := mem_listQueue_iff.mp h
  have hdate : datePred (some d) w = true := (Bool.and_eq_true _ _ ▸ hpred : _ ∧ _).2
  simp only [datePred, Bool.and_eq_true, decide_eq_true_eq] at hdate
  exact hdate

/-- C6 witness: with window start 5, the returned row for `washDone`
(deliveryTime 50) lies inside the window. -/
theorem c6_date_filter_witness :
    (5 : Nat) ≤ (mkItem washDone clientA).deliveryTime ∧
      (mkItem washDone clientA).deliveryTime ≤ 5 + 86399999 :=
  c6_date_filter 10 none 5 { clients := [clientA], washes := [washDone] }
    (mkItem washDone clientA) (by decide)

/-- C7: the `$lookup`/`$unwind` join is an inner join on the client's
custom id: every returned row comes from a swept wash together with a
client whose id equals the wash's clientId and carries that client's
name and phone; and a wash whose clientId matches no client yields no
rows at all. -/
theorem c7_inner_join (now : Nat) (sf : Option String) (df : Option Nat) (st : Store) :
    (∀ item ∈ (listQueue now sf df st).2,
      ∃ c ∈ st.clients, item.clientName = c.name ∧ item.clientPhone = c.phone ∧
        ∃ w ∈ sweep now st.washes, c.id = w.clientId ∧ item = mkItem w c) ∧
    (∀ (w : Wash) (clients : List Client), (∀ c ∈ clients, c.id ≠ w.clientId) →
      (listQueue now sf df { clients := clients, washes := [w] }).2 = []) := by
  constructor
  · intro item hitem
    obtain ⟨w, hw, _, c, hc, hid, rfl⟩ := mem_listQueue_iff.mp hitem
    exact ⟨c, hc, rfl, rfl, w, hw, hid, rfl⟩
  · intro w clients hnc
    have hfe : List.filter (fun c => c.id == (sweepOne now w).clientId) clients = [] :=
      List.filter_eq_nil_iff.mpr fun c hc => by
        simp [sweepOne_clientId, hnc c hc]
    have hjoin : joinItems clients (List.filter (washPred sf df) (sweep now [w])) = [] := by
      unfold sweep
      simp only [List.map_cons, List.map_nil, List.filter_cons, List.filter_nil]
      split
      · unfold joinItems
        simp [hfe]
      · rfl
    show List.insertionSort (fun a b : QueueItem => a.deliveryTime ≤ b.deliveryTime)
      (joinItems clients (List.filter (washPred sf df) (sweep now [w]))) = []
    rw [hjoin]
    rfl

/-- C7 witness: the row for `washDone` carries `clientA`'s name and
phone, and `washOrphan` (clientId "zz", matching no client) produces an
empty listing. -/
theorem c7_inner_join_witness :
    (∃ c ∈ ({ clients := [clientA], washes := [washDone] } : Store).clients,
      (mkItem washDone clientA).clientName = c.name ∧
      (mkItem washDone clientA).clientPhone = c.phone ∧
      ∃ w ∈ sweep 10 ({ clients := [clientA], washes := [washDone] } : Store).washes,
        c.id = w.clientId ∧ mkItem washDone clientA = mkItem w c) ∧
    (listQueue 10 none none { clients := [clientA], washes := [washOrphan] }).2 = [] :=
  ⟨(c7_inner_join 10 none none { clients := [clientA], washes := [washDone] }).1
      (mkItem washDone clientA) (by decide),
   (c7_inner_join 10 none none { clients := [clientA], washes := [washDone] }).2
      washOrphan [clientA] (by decide)⟩

/-- C8, counterexample: the query is fed to `new RegExp(q, "i")` as a
regular-expression pattern, not treated as a literal: for the query
"a.c" and a client named "abc" the route returns the client (the `.`
matches "b") although "a.c" is not a literal substring of any field. -/
theorem c8_search_counterexample :
    searchClients "a.c" { clients := [clientB], washes := [] } = [clientB] ∧
    searchClientsSpec "a.c" { clients := [clientB], washes := [] } = [] := by
  exact ⟨by decide, by decide⟩

/-- C8 (amended): for a query without regular-expression
metacharacters, search returns exactly the clients having the query as
a case-insensitive literal substring of name, plate, phone or carModel;
a query with no matches yields the empty list (not an error), and the
result is ordered by creation time, descending. -/
theorem c8_search_amended (q : String) (st : Store)
    (hq : ∀ c ∈ q.data, plainChar c = true) :
    searchClients q st = searchClientsSpec q st ∧
    ((∀ c ∈ st.clients, clientMatchesSpec q c = false) → searchClients q st = []) ∧
    (searchClients q st).Pairwise fun a b => b.createdAt ≤ a.createdAt := by
  have heq : st.clients.filter (clientMatches q) = st.clients.filter (clientMatchesSpec q) :=
    List.filter_congr fun c _ => clientMatches_eq_spec hq c
  refine ⟨?_, ?_, ?_⟩
  · unfold searchClients searchClientsSpec
    rw [heq]
  · intro hnone
    unfold searchClients
    rw [heq, List.filter_eq_nil_iff.mpr fun c hc => by simp [hnone c hc]]
    rfl
  · exact List.sorted_insertionSort (fun a b : Client => b.createdAt ≤ a.createdAt)
      (st.clients.filter (clientMatches q))

/-- C8 amended, witness: the metacharacter-free query "ab" agrees with
the literal-substring specification on a concrete store. -/
theorem c8_search_amended_witness :
    searchClients "ab" { clients := [clientA], washes := [] } =
      searchClientsSpec "ab" { clients := [clientA], washes := [] } :=
  (c8_search_amended "ab" { clients := [clientA], washes := [] } (by decide)).1

/-- C9: updateStatus writes whatever status string it is given — the
statement holds for every `s`, with no membership check against
pending/completed/cancelled — returning the updated wash; and when no
wash has the requested id it returns `none` (serialised as the JSON
body `null` with HTTP 200, there is no error path) and leaves the store
unchanged. -/
theorem c9_update_status (id : Nat) (s : String) (st : Store) :
    (∀ w, (st.washes.find? fun w => w.wid == id) = some w →
      updateStatus id s st =
        ({ st with
            washes :=
              updateFirst (fun w => w.wid == id) (fun w => { w with status := s }) st.washes },
         some { w with status := s })) ∧
    ((st.washes.find? fun w => w.wid == id) = none →
      updateStatus id s st = (st, none)) := by
  constructor
  · intro w hw
    unfold updateStatus
    rw [hw]
  · intro hw
    unfold updateStatus
    rw [hw]

/-- C9 witness: setting the unknown status "bogus" on wash 2 succeeds
and stores it verbatim; id 5 matches nothing and yields `(store, none)`. -/
theorem c9_update_status_witness :
    updateStatus 2 "bogus" { clients := [], washes := [washPending] } =
      ({ clients := [], washes := [{ washPending with status := "bogus" }] },
        some { washPending with status := "bogus" }) ∧
    updateStatus 5 "bogus" { clients := [], washes := [washPending] } =
      ({ clients := [], washes := [washPending] }, none) :=
  ⟨by rw [(c9_update_status 2 "bogus" { clients := [], washes := [washPending] }).1
        washPending (by decide)]
      decide,
   (c9_update_status 5 "bogus" { clients := [], washes := [washPending] }).2 (by decide)⟩

/-- C10: the carModel length check is guarded by JavaScript truthiness
(`if (carModel && carModel.length > 30)`), so an absent, null or empty
carModel skips validation entirely: the outcome is never the 400
ValidationError, and on the fresh-registration path the created Client
and Wash store the missing carModel exactly as given. -/
theorem c10_carmodel_falsy (now : Nat) (freshId : String) (freshWid : Nat)
    (inp : RegisterInput) (st : Store)
    (h : inp.carModel = none ∨ inp.carModel = some "") :
    (registerService now freshId freshWid inp st).1 ≠ .validationError ∧
    ((∀ w ∈ st.washes, ¬(w.plate = inp.plate ∧ w.status = "pending")) →
      (st.clients.find? fun c => c.plate == inp.plate) = none →
      ∃ cl wsh, (registerService now freshId freshWid inp st).1 = .created cl wsh ∧
        cl.carModel = inp.carModel ∧ wsh.carModel = inp.carModel) := by
  have hval : (optTruthy inp.carModel && decide (30 < (inp.carModel.getD "").length)) =
      false := by
    rcases h with h | h <;> simp [h, optTruthy]
  constructor
  · unfold registerService
    rw [if_neg (by simp [hval])]
    split
    · simp
    · split <;> simp
  · intro hnop hfindc
    have hfindw : (st.washes.find? fun w => w.plate == inp.plate && w.status == "pending") =
        none := by
      rw [List.find?_eq_none]
      intro w hw
      simp only [Bool.and_eq_true, beq_iff_eq, not_and]
      intro hp hs
      exact absurd ⟨hp, hs⟩ (hnop w hw)
    unfold registerService
    rw [if_neg (by simp [hval]), hfindw, hfindc]
    exact ⟨_, _, rfl, rfl, rfl⟩

/-- C10 witness: registering with carModel absent passes validation and
stores `none` on both the new client and the new wash. -/
theorem c10_carmodel_falsy_witness :
    (registerService 10 "u9" 9
      { name := "Eva", phone := "444", plate := "ZZZ9999", carModel := none,
        washPrice := none, deliveryTime := 100, paymentMethod := none }
      { clients := [], washes := [] }).1 ≠ .validationError ∧
    ∃ cl wsh, (registerService 10 "u9" 9
      { name := "Eva", phone := "444", plate := "ZZZ9999", carModel := none,
        washPrice := none, deliveryTime := 100, paymentMethod := none }
      { clients := [], washes := [] }).1 = .created cl wsh ∧
      cl.carModel = none ∧ wsh.carModel = none :=
  ⟨(c10_carmodel_falsy 10 "u9" 9 _ _ (Or.inl rfl)).1,
   (c10_carmodel_falsy 10 "u9" 9 _ _ (Or.inl rfl)).2 (by decide) (by decide)⟩
